import Mathlib

/-!
Verification of the nfcuid read-and-recover engine.

This file shallowly embeds the core of `service.go`: the UID formatting
codec (`formatOutput`), the retry policy (`RetryManager.Retry`), the
failure tracker / restart supervisor (`trackSystemFailure`,
`ResetFailureCount`), the notification throttle (`shouldNotifyError`,
`NotifyErrorThrottled`, `NotifySuccess`), and the control flow of
`processCard`, `cardReadingLoop`, `selectDevice` and `Start`.

Machine bytes are modelled as `Nat` values below 256; timestamps and
durations are modelled as `Nat` nanoseconds, matching Go's `time.Duration`
representation.  Go maps keyed by error-type strings are modelled as
association lists.
-/

namespace Nfcuid

/-- Modelled from the spec: the `CharFlag` enumeration and its `Output()`
glyph mapping are referenced by `service.go` (`Flags.EndChar`,
`Flags.InChar`, `CharFlag.Output`) but their defining source file is not
part of the provided sources.  The spec fixes the enumeration as
{none, space, tab, hyphen, enter, semicolon, colon, comma} and the codec
examples fix hyphen ↦ "-" and enter ↦ "\n". -/
inductive CharFlag where
  | none
  | space
  | tab
  | hyphen
  | enter
  | semicolon
  | colon
  | comma
deriving DecidableEq, Repr

/-- Modelled from the spec: the glyph each `CharFlag` renders as. -/
def CharFlag.Output : CharFlag → String
  | .none => ""
  | .space => " "
  | .tab => "\t"
  | .hyphen => "-"
  | .enter => "\n"
  | .semicolon => ";"
  | .colon => ":"
  | .comma => ","

/-- The `Flags` struct of `service.go` (lines 34-41): output configuration
plus the configured device number.  `Device` is a Go `int`, modelled as
`Int`. -/
structure Flags where
  CapsLock : Bool
  Reverse : Bool
  Decimal : Bool
  EndChar : CharFlag
  InChar : CharFlag
  Device : Int
deriving DecidableEq, Repr

/-- Embedding of `UIDToUint32` (service.go): errors unless the UID is exactly 4
bytes, otherwise decodes them as an unsigned 32-bit little-endian
integer (`binary.LittleEndian.Uint32`). -/
def UIDToUint32 (uid : List Nat) : Option Nat :=
  match uid with
  | [b0, b1, b2, b3] => some (b0 + b1 * 256 + b2 * 65536 + b3 * 16777216)
  | _ => Option.none

/-- One hex digit of `fmt.Sprintf("%02x" / "%02X", b)`: digit `n < 16`
rendered uppercase iff `caps`. -/
def hexDigit (caps : Bool) (n : Nat) : Char :=
  (if caps then "0123456789ABCDEF" else "0123456789abcdef").toList.getD n '0'

/-- One byte rendered as exactly two hex digits, as Go's `%02x` / `%02X`
does for byte values (< 256). -/
def hexByte (caps : Bool) (b : Nat) : String :=
  String.mk [hexDigit caps (b / 16), hexDigit caps (b % 16)]

/-- The hex loop of `formatOutput`: each byte as two hex digits, with the
`inChar` glyph after every byte except the last. -/
def hexConcat (caps : Bool) (inCh : String) : List Nat → String
  | [] => ""
  | [b] => hexByte caps b
  | b :: rest => hexByte caps b ++ inCh ++ hexConcat caps inCh rest

/-- Result of one `formatOutput` call: the rendered string, the `Flags`
value stored back into the service afterwards (the code mutates
`s.flags.Decimal` on decimal fallback), and whether the user-facing
"format fallback" error notification (`NotifyError`) was emitted. -/
structure FormatResult where
  out : String
  flags : Flags
  fallbackNotified : Bool
deriving DecidableEq, Repr

/-- Embedding of `formatOutput` (service.go lines 146-184).  Reverses the bytes if
`Reverse`; if `Decimal` and the UID decodes as a 4-byte little-endian
uint32, renders it with `fmt.Sprintf("%d", number)`; if `Decimal` and the
UID is not 4 bytes, emits the fallback notification, clears the service's
`Decimal` flag and falls through to the hex path; otherwise renders the
hex path; finally appends the `EndChar` glyph. -/
def formatOutput (f : Flags) (rx0 : List Nat) : FormatResult :=
  let rx := if f.Reverse then rx0.reverse else rx0
  if f.Decimal then
    match UIDToUint32 rx with
    | some number =>
        { out := toString number ++ f.EndChar.Output
          flags := f
          fallbackNotified := false }
    | Option.none =>
        let f' := { f with Decimal := false }
        { out := hexConcat f'.CapsLock f'.InChar.Output rx ++ f'.EndChar.Output
          flags := f'
          fallbackNotified := true }
  else
    { out := hexConcat f.CapsLock f.InChar.Output rx ++ f.EndChar.Output
      flags := f
      fallbackNotified := false }

example :
    (formatOutput ⟨false, false, true, CharFlag.none, CharFlag.none, 1⟩
      [0x04, 0xAE, 0x65, 0xCA]).out = "3395661316" := by decide

example :
    (formatOutput ⟨false, false, false, CharFlag.enter, CharFlag.hyphen, 1⟩
      [0x04, 0xAE, 0x65, 0xCA]).out = "04-ae-65-ca\n" := by decide

/-! ## Retry Policy (`RetryManager.Retry`, service.go lines 633-652) -/

/-- Outcome of one `Retry` run: `Except.ok` on first success, otherwise
`Except.error (maxAttempts, lastErr)` mirroring
`fmt.Errorf("operation failed after %d attempts, last error: %v", ...)`;
plus the number of operation calls made and the list of back-off delays
slept, in order. -/
structure RetryOutcome (ε : Type) where
  result : Except (Nat × ε) Unit
  calls : Nat
  sleeps : List Nat

/-- The loop body of `RetryManager.Retry`.  `remaining` is the number of
attempts still allowed (`maxAttempts - attempt + 1` at entry), `attempt`
is the 1-indexed attempt about to run, `base` the `baseDelay`.  The
operation is modelled as a function from the attempt index to
`Option ε` (`Option.none` = success).  After a failed non-final attempt
the loop sleeps `attempt * base`. -/
def retryGo (maxAttempts base : Nat) (op : Nat → Option ε) :
    Nat → Nat → RetryOutcome ε
  | 0, _ => ⟨Except.ok (), 0, []⟩
  | rem + 1, attempt =>
    match op attempt with
    | Option.none => ⟨Except.ok (), 1, []⟩
    | some e =>
      if rem = 0 then
        ⟨Except.error (maxAttempts, e), 1, []⟩
      else
        let r := retryGo maxAttempts base op rem (attempt + 1)
        ⟨r.result, r.calls + 1, attempt * base :: r.sleeps⟩

/-- Embedding of `RetryManager.Retry`: run the loop from attempt 1 with `maxAttempts`
attempts allowed. -/
def Retry (maxAttempts base : Nat) (op : Nat → Option ε) : RetryOutcome ε :=
  retryGo maxAttempts base op maxAttempts 1

/-! ## Failure Tracker / Restart Supervisor (service.go lines 671-718) -/

/-- The `RestartManager` fields the tracking logic reads:
`config.Advanced.SelfRestart`, `config.Advanced.MaxContextFailures`, and
the shared `contextFailureCount`. -/
structure RestartManager where
  selfRestart : Bool
  maxContextFailures : Nat
  contextFailureCount : Nat
deriving DecidableEq, Repr

/-- Embedding of `trackSystemFailure` (service.go lines 699-710): increment the shared
counter; if `SelfRestart` is enabled and the counter has reached
`MaxContextFailures`, perform the self-restart (modelled by returning
`true`; the real call never returns because the process is replaced).
The failure category string is only printed, never branched on. -/
def trackSystemFailure (_operation : String) (rm : RestartManager) :
    RestartManager × Bool :=
  let c := rm.contextFailureCount + 1
  let rm' := { rm with contextFailureCount := c }
  if rm.selfRestart ∧ rm.maxContextFailures ≤ c then
    (rm', true)
  else
    (rm', false)

/-- Embedding of `ResetFailureCount` (service.go lines 713-718): reset the counter to 0
when it is positive, otherwise leave the state untouched. -/
def ResetFailureCount (rm : RestartManager) : RestartManager :=
  if rm.contextFailureCount > 0 then
    { rm with contextFailureCount := 0 }
  else
    rm

/-- An event fed to the failure tracker: a `trackSystemFailure` call with
its category, or a `ResetFailureCount` call. -/
inductive RMEvent where
  | fail (category : String)
  | success
deriving DecidableEq, Repr

/-- Run a sequence of tracker events.  Returns the final state and the
0-indexed position of the event at which the restart sequence fired, if
any; events after a restart are not processed (the process is replaced
and never returns to the caller). -/
def rmRun : List RMEvent → RestartManager → RestartManager × Option Nat
  | [], rm => (rm, Option.none)
  | RMEvent.fail c :: es, rm =>
    let r := trackSystemFailure c rm
    if r.2 then
      (r.1, some 0)
    else
      ((rmRun es r.1).1, (rmRun es r.1).2.map (· + 1))
  | RMEvent.success :: es, rm =>
    ((rmRun es (ResetFailureCount rm)).1,
     (rmRun es (ResetFailureCount rm)).2.map (· + 1))

/-! ## Notification Throttle (service.go lines 409-492, 777-866) -/

/-- Association-list lookup modelling a Go `map[string]T` read that
distinguishes presence (`m[k], ok := ...`). -/
def alookup (k : String) : List (String × α) → Option α
  | [] => Option.none
  | (k', v) :: t => if k' = k then some v else alookup k t

/-- Go map read with zero default: `m[k]` on a `map[string]int`. -/
def alookupD (k : String) (l : List (String × Nat)) : Nat :=
  (alookup k l).getD 0

/-- Go map write `m[k] = v`: update in place, or append a new entry. -/
def aset (k : String) (v : α) : List (String × α) → List (String × α)
  | [] => [(k, v)]
  | (k', v') :: t => if k' = k then (k, v) :: t else (k', v') :: aset k v t

/-- One nanosecond-denominated Go `time.Minute`. -/
def minuteNs : Nat := 60000000000

/-- The `NotificationManager` state (service.go lines 409-415): enablement
flags, the per-error-type last-notification timestamps and the
per-error-type consecutive occurrence counts. -/
structure NotificationManager where
  enabled : Bool
  showSuccess : Bool
  showErrors : Bool
  lastNotifications : List (String × Nat)
  errorCounts : List (String × Nat)
deriving DecidableEq, Repr

/-- Embedding of `shouldNotifyError` (service.go lines 798-851), with `now` the current
timestamp in nanoseconds.  First occurrence of an error type (no entry in
`lastNotifications`) always notifies; otherwise a per-class schedule over
the occurrence count applies, each with a minimum-elapsed-time override.
`now - last` is `Nat` subtraction: a clock that has not advanced past the
threshold yields `0 > threshold = false`, exactly as Go's signed duration
comparison does. -/
def shouldNotifyError (nm : NotificationManager) (errorType _message : String)
    (now : Nat) : Bool :=
  match alookup errorType nm.lastNotifications with
  | Option.none => true
  | some lastNotification =>
    let count := alookupD errorType nm.errorCounts
    if errorType = "pc-sc-context" ∨ errorType = "reader-error" then
      if count = 0 ∨ count = 2 ∨ count = 4 then true
      else if 10 ≤ count ∧ count % 10 = 0 then true
      else if 5 * minuteNs < now - lastNotification then true
      else false
    else if errorType = "card-error" then
      if count = 0 ∨ count % 5 = 0 then true
      else if 2 * minuteNs < now - lastNotification then true
      else false
    else if errorType = "service-error" then
      if count ≤ 1 ∨ count % 5 = 0 then true
      else if 3 * minuteNs < now - lastNotification then true
      else false
    else
      if count = 0 ∨ count % 3 = 0 then true
      else if minuteNs < now - lastNotification then true
      else false

/-- Embedding of `NotifyErrorThrottled` (service.go lines 472-492): no-op when
notifications or error notifications are disabled; otherwise decide via
`shouldNotifyError` (before any increment), deliver and stamp
`lastNotifications[errorType] = now` when the decision is positive, and
increment `errorCounts[errorType]` unconditionally afterwards.  Returns
the new state and whether a notification was delivered. -/
def NotifyErrorThrottled (nm : NotificationManager)
    (errorType message : String) (now : Nat) :
    NotificationManager × Bool :=
  if ¬nm.enabled ∨ ¬nm.showErrors then
    (nm, false)
  else
    let fired := shouldNotifyError nm errorType message now
    let last' :=
      if fired then aset errorType now nm.lastNotifications
      else nm.lastNotifications
    let counts' :=
      aset errorType (alookupD errorType nm.errorCounts + 1) nm.errorCounts
    ({ nm with lastNotifications := last', errorCounts := counts' }, fired)

/-- Embedding of `hasRecentErrors` (service.go lines 854-861): some error type has a
positive occurrence count. -/
def hasRecentErrors (nm : NotificationManager) : Bool :=
  nm.errorCounts.any (fun p => p.2 > 0)

/-- Embedding of `NotifySuccess` (service.go lines 429-444): no-op when notifications
or success notifications are disabled; otherwise deliver and clear all
error counts (`clearErrorCounts`, lines 864-866, replaces the map with a
fresh empty one) exactly when `hasRecentErrors`.  Returns the new state
and whether a notification was delivered. -/
def NotifySuccess (nm : NotificationManager) (_message : String) :
    NotificationManager × Bool :=
  if ¬nm.enabled ∨ ¬nm.showSuccess then
    (nm, false)
  else if hasRecentErrors nm then
    ({ nm with errorCounts := [] }, true)
  else
    (nm, false)

/-- A fresh `NotificationManager` as built by `NewNotificationManager`
with notifications, success and error display all enabled. -/
def freshNM : NotificationManager :=
  ⟨true, true, true, [], []⟩

/-- Feed a sequence of `(now, message)` card-read errors through
`NotifyErrorThrottled` under the `"card-error"` type, collecting whether
each call delivered a notification. -/
def runCardErrors (nm : NotificationManager) : List Nat → NotificationManager × List Bool
  | [] => (nm, [])
  | now :: rest =>
    let (nm', fired) := NotifyErrorThrottled nm "card-error" "msg" now
    let (nm'', fs) := runCardErrors nm' rest
    (nm'', fired :: fs)

/-- The full service state touched by the notification and restart
managers together: `NotifySuccess` lives on the notification manager and
has no access to the restart manager's counter. -/
structure SystemState where
  nm : NotificationManager
  rm : RestartManager
deriving DecidableEq, Repr

/-- The service-level view of `NotifySuccess`: only the notification
manager is threaded through the call. -/
def sysNotifySuccess (s : SystemState) (message : String) : SystemState × Bool :=
  let (nm', delivered) := NotifySuccess s.nm message
  ({ s with nm := nm' }, delivered)

/-! ## Card processing control flow (service.go lines 270-356) -/

/-- Observable actions of one `processCard` / loop iteration, in program
order. -/
inductive PCEvent where
  | notifyFormatFallback
  | notifyKeyboardError
  | notifySuccess
  | waitedForRelease
  | notifyReleaseError
  | notifyCardError
deriving DecidableEq, Repr

/-- Outcomes of the fallible steps inside one `processCard` call, already
run through their retry wrappers: the card connection, the UID read, the
keystroke-sink write (`KeyboardWrite`), and the wait for card removal
(`waitUntilCardRelease`).  `Option.none` means the step succeeded. -/
structure CardEnv (ε : Type) where
  connect : Option ε
  readUID : Except ε (List Nat)
  kbWrite : Option ε
  waitRelease : Option ε

/-- Embedding of `processCard` (service.go lines 304-356): connect, read the UID,
format it, write it to the keystroke sink, and on sink success notify
success and wait for the card to be removed (a release-wait error is
notified but does not fail the call).  On sink failure the code notifies
the keyboard error and returns the error immediately: the release wait is
never reached.  Returns the error result, the ordered event trace and the
flags stored back after `formatOutput`. -/
def processCard (env : CardEnv ε) (f : Flags) :
    Option ε × List PCEvent × Flags :=
  match env.connect with
  | some e => (some e, [], f)
  | Option.none =>
  match env.readUID with
  | Except.error e => (some e, [], f)
  | Except.ok uidBytes =>
    let fr := formatOutput f uidBytes
    let fallbackTrace := if fr.fallbackNotified then [PCEvent.notifyFormatFallback] else []
    match env.kbWrite with
    | some e => (some e, fallbackTrace ++ [PCEvent.notifyKeyboardError], fr.flags)
    | Option.none =>
      match env.waitRelease with
      | some _ =>
        (Option.none,
         fallbackTrace ++ [PCEvent.notifySuccess, PCEvent.waitedForRelease,
           PCEvent.notifyReleaseError],
         fr.flags)
      | Option.none =>
        (Option.none,
         fallbackTrace ++ [PCEvent.notifySuccess, PCEvent.waitedForRelease],
         fr.flags)

/-- How one `cardReadingLoop` iteration ends: continue with the next
iteration, or return the error out of the loop. -/
inductive LoopStep (ε : Type) where
  | continueLoop
  | exitErr (e : ε)
deriving DecidableEq

/-- One iteration of `cardReadingLoop` (service.go lines 270-292):
wait for a card (already retried); on wait failure notify throttled and
continue only under `autoReconnect`; otherwise process the card, and on a
`processCard` error notify throttled and continue to the next card. -/
def cardReadingIter (waitCard : Except ε Nat) (env : CardEnv ε)
    (autoReconnect : Bool) (f : Flags) :
    LoopStep ε × List PCEvent × Flags :=
  match waitCard with
  | Except.error e =>
    if autoReconnect then (LoopStep.continueLoop, [PCEvent.notifyCardError], f)
    else (LoopStep.exitErr e, [PCEvent.notifyCardError], f)
  | Except.ok _index =>
    match processCard env f with
    | (some _, trace, f') =>
      (LoopStep.continueLoop, trace ++ [PCEvent.notifyCardError], f')
    | (Option.none, trace, f') =>
      (LoopStep.continueLoop, trace, f')

/-! ## Service start-up and device selection (service.go lines 58-139, 237-268) -/

/-- Errors `runServiceLoop` can return, as far as the claims distinguish
them. -/
inductive SvcError where
  | ctxFailed
  | listReadersFailed
  | zeroReaders
  | deviceOutOfRange (device : Int) (numReaders : Nat)
  | loopError
deriving DecidableEq, Repr

/-- Embedding of `selectDevice` (service.go lines 237-268) for a configured (non-zero)
device number: out of `[1, len(readers)]` is an error; a device of 0
enters an interactive prompt loop that only ever exits with a valid
choice, modelled as success. -/
def selectDevice (device : Int) (numReaders : Nat) : Except SvcError Unit :=
  if device = 0 then Except.ok ()
  else if device < 1 ∨ device > (numReaders : Int) then
    Except.error (SvcError.deviceOutOfRange device numReaders)
  else Except.ok ()

/-- Environment of one `runServiceLoop` iteration: the (already retried)
context establishment, the reader enumeration, and the error with which
the card reading loop eventually returns (the loop itself is infinite and
only exits with an error). -/
structure SvcEnv where
  establishCtx : Option SvcError
  listReaders : Except SvcError (List String)
  loopResult : SvcError

/-- Embedding of `runServiceLoop` (service.go lines 75-139) up to the error it
returns: context, reader enumeration, the zero-readers check, device
selection, then the card reading loop. -/
def runServiceLoop (env : SvcEnv) (device : Int) : SvcError :=
  match env.establishCtx with
  | some e => e
  | Option.none =>
  match env.listReaders with
  | Except.error e => e
  | Except.ok readers =>
    if readers.length < 1 then SvcError.zeroReaders
    else
      match selectDevice device readers.length with
      | Except.error e => e
      | Except.ok () => env.loopResult

/-- How `Start` reacts to one `runServiceLoop` error. -/
inductive StartOutcome where
  | retryAfterDelay
  | stopped (code : Nat)
deriving DecidableEq, Repr

/-- The error handler of `Start` (service.go lines 58-73): every
`runServiceLoop` error is notified; with `autoReconnect` the whole loop is
retried after the reconnect delay, without it the service exits via
`SafeExit(1, ...)`.  No error kind is treated specially. -/
def startHandle (autoReconnect : Bool) (_e : SvcError) : StartOutcome :=
  if autoReconnect then StartOutcome.retryAfterDelay
  else StartOutcome.stopped 1

/-! ## Helper lemmas -/

lemma foldl_append_str (t : List String) (a b : String) :
    List.foldl (fun r s => r ++ s) (a ++ b) t = a ++ List.foldl (fun r s => r ++ s) b t := by
  induction t generalizing b with
  | nil => simp
  | cons c t ih =>
    simp only [List.foldl]
    rw [String.append_assoc]
    exact ih (b ++ c)

lemma join_cons_str (a : String) (l : List String) :
    String.join (a :: l) = a ++ String.join l := by
  have h := foldl_append_str l a ""
  simpa [String.join] using h

/-- The codec's hex loop is the intersperse-and-join of the per-byte
renderings. -/
lemma hexConcat_eq_join (caps : Bool) (inCh : String) (l : List Nat) :
    hexConcat caps inCh l =
      String.join (List.intersperse inCh (l.map (hexByte caps))) := by
  induction l with
  | nil => rfl
  | cons b t ih =>
    cases t with
    | nil => simp [hexConcat, String.join]
    | cons b' t' =>
      simp only [hexConcat, List.map, List.intersperse] at ih ⊢
      rw [join_cons_str, join_cons_str, ih, String.append_assoc]

set_option maxRecDepth 10000 in
lemma hexByte_length_two : ∀ b, b < 256 → ∀ caps, (hexByte caps b).length = 2 := by
  decide

set_option maxRecDepth 10000 in
lemma hexByte_caps_toUpper :
    ∀ b, b < 256 → hexByte true b = String.mk ((hexByte false b).toList.map Char.toUpper) := by
  decide

lemma UIDToUint32_eq_none (l : List Nat) (h : l.length ≠ 4) :
    UIDToUint32 l = Option.none := by
  rcases l with _ | ⟨a, _ | ⟨b, _ | ⟨c, _ | ⟨d, _ | ⟨e, t⟩⟩⟩⟩⟩ <;>
    simp [UIDToUint32] at h ⊢

lemma UIDToUint32_of_len4 (l : List Nat) (h : l.length = 4) :
    ∃ n, UIDToUint32 l = some n := by
  rcases l with _ | ⟨a, _ | ⟨b, _ | ⟨c, _ | ⟨d, _ | ⟨e, t⟩⟩⟩⟩⟩ <;>
    simp [UIDToUint32] at h ⊢

lemma reverse_if_length (c : Bool) (rx : List Nat) :
    (if c then rx.reverse else rx).length = rx.length := by
  cases c <;> simp

/-! ## Claims -/

/-- Claim C3: the decimal path of `formatOutput` renders a 4-byte UID as
the decimal of its unsigned 32-bit little-endian value, but it never
left-pads with zeros: the repository documents a `decimal_padding`
configuration ("Pad decimal numbers with leading zeros to this length"),
yet the `Flags` struct consumed by `formatOutput` carries no padding
field and the code prints with a bare `%d`.  `[0x04, 0xAE, 0x65, 0xCA]`
renders as "3395661316" (10 digits, so the documented padding to width 10
would be invisible), while `[0x01, 0x00, 0x00, 0x00]` renders as "1"
rather than the "0000000001" the documented padding would produce. -/
theorem c3_decimal_path_unpadded :
    (formatOutput ⟨false, false, true, CharFlag.none, CharFlag.none, 1⟩
      [0x04, 0xAE, 0x65, 0xCA]).out = "3395661316"
    ∧ (formatOutput ⟨false, false, true, CharFlag.none, CharFlag.none, 1⟩
      [0x01, 0x00, 0x00, 0x00]).out = "1"
    ∧ (formatOutput ⟨false, false, true, CharFlag.none, CharFlag.none, 1⟩
      [0x01, 0x00, 0x00, 0x00]).out ≠ "0000000001" := by
  refine ⟨by decide, by decide, by decide⟩

/-- Claim C4: with `decimal` disabled, `formatOutput` renders each byte as
exactly two hex digits (the uppercase rendering is the character-wise
upper-casing of the lowercase one, chosen by `capsLock`), joined with the
`inChar` glyph between consecutive bytes and none after the last, then
appends the `endChar` glyph; the hex path signals no fallback error; and
the spec's example UID renders as "04-ae-65-ca\n". -/
theorem c4_hex_path (f : Flags) (rx : List Nat) (hdec : f.Decimal = false)
    (hbytes : ∀ b ∈ rx, b < 256) :
    (formatOutput f rx).out =
      String.join (List.intersperse f.InChar.Output
        ((if f.Reverse then rx.reverse else rx).map (hexByte f.CapsLock)))
      ++ f.EndChar.Output
    ∧ (formatOutput f rx).fallbackNotified = false
    ∧ (∀ b ∈ rx, (hexByte f.CapsLock b).length = 2)
    ∧ (∀ b ∈ rx, hexByte true b = String.mk ((hexByte false b).toList.map Char.toUpper))
    ∧ (formatOutput ⟨false, false, false, CharFlag.enter, CharFlag.hyphen, 1⟩
        [0x04, 0xAE, 0x65, 0xCA]).out = "04-ae-65-ca\n" := by
  refine ⟨?_, ?_, ?_, ?_, by decide⟩
  · simp [formatOutput, hdec, hexConcat_eq_join]
  · simp [formatOutput, hdec]
  · exact fun b hb => hexByte_length_two b (hbytes b hb) f.CapsLock
  · exact fun b hb => hexByte_caps_toUpper b (hbytes b hb)

/-- Witness for `c4_hex_path` at the spec's example input. -/
theorem c4_hex_path_witness :
    (formatOutput ⟨false, false, false, CharFlag.enter, CharFlag.hyphen, 1⟩
      [0x04, 0xAE, 0x65, 0xCA]).out =
      String.join (List.intersperse ((CharFlag.hyphen).Output)
        ([0x04, 0xAE, 0x65, 0xCA].map (hexByte false)))
      ++ (CharFlag.enter).Output := by
  have h := c4_hex_path ⟨false, false, false, CharFlag.enter, CharFlag.hyphen, 1⟩
    [0x04, 0xAE, 0x65, 0xCA] rfl (by decide)
  simpa using h.1

/-- Claim C9 counterexample: `formatOutput` is not configuration-preserving.
Called with `Decimal` enabled on a 7-byte UID it clears the service's
`Decimal` flag (the configuration differs after the call) and emits the
fallback error notification (I/O). -/
theorem c9_counterexample :
    (formatOutput ⟨false, false, true, CharFlag.none, CharFlag.none, 1⟩
        [1, 2, 3, 4, 5, 6, 7]).flags
      ≠ (⟨false, false, true, CharFlag.none, CharFlag.none, 1⟩ : Flags)
    ∧ (formatOutput ⟨false, false, true, CharFlag.none, CharFlag.none, 1⟩
        [1, 2, 3, 4, 5, 6, 7]).fallbackNotified = true := by
  refine ⟨by decide, by decide⟩

/-- Claim C9 amended: `formatOutput` is deterministic (equal UID bytes and
equal configuration give equal results), and it is configuration-preserving
and notification-free except in the decimal-fallback case: when `Decimal`
is set and the UID is not 4 bytes long it clears the `Decimal` flag and
emits the fallback error notification. -/
theorem c9_purity_amended (f : Flags) (rx : List Nat) :
    (∀ (f₂ : Flags) (rx₂ : List Nat), f = f₂ → rx = rx₂ →
      formatOutput f rx = formatOutput f₂ rx₂)
    ∧ (f.Decimal = false ∨ rx.length = 4 →
        (formatOutput f rx).flags = f ∧ (formatOutput f rx).fallbackNotified = false)
    ∧ (f.Decimal = true → rx.length ≠ 4 →
        (formatOutput f rx).flags = { f with Decimal := false }
        ∧ (formatOutput f rx).fallbackNotified = true) := by
  refine ⟨fun f₂ rx₂ hf hrx => by rw [hf, hrx], ?_, ?_⟩
  · rintro (hd | hlen)
    · simp [formatOutput, hd]
    · by_cases hd : f.Decimal
      · obtain ⟨n, hn⟩ := UIDToUint32_of_len4 (if f.Reverse then rx.reverse else rx)
          (by rw [reverse_if_length]; exact hlen)
        simp [formatOutput, hd, hn]
      · simp [formatOutput, hd]
  · intro hd hlen
    have hnone : UIDToUint32 (if f.Reverse then rx.reverse else rx) = Option.none :=
      UIDToUint32_eq_none _ (by rw [reverse_if_length]; exact hlen)
    simp [formatOutput, hd, hnone]

/-- Witness for `c9_purity_amended`: the 7-byte fallback input clears the
`Decimal` flag and signals the fallback, and a 4-byte decimal input leaves
the configuration untouched. -/
theorem c9_purity_amended_witness :
    ((formatOutput ⟨false, false, true, CharFlag.none, CharFlag.none, 1⟩
        [1, 2, 3, 4, 5, 6, 7]).flags
      = { (⟨false, false, true, CharFlag.none, CharFlag.none, 1⟩ : Flags) with
            Decimal := false }
    ∧ (formatOutput ⟨false, false, true, CharFlag.none, CharFlag.none, 1⟩
        [1, 2, 3, 4, 5, 6, 7]).fallbackNotified = true)
    ∧ ((formatOutput ⟨false, false, true, CharFlag.none, CharFlag.none, 1⟩
        [4, 174, 101, 202]).flags
      = ⟨false, false, true, CharFlag.none, CharFlag.none, 1⟩
    ∧ (formatOutput ⟨false, false, true, CharFlag.none, CharFlag.none, 1⟩
        [4, 174, 101, 202]).fallbackNotified = false) := by
  refine ⟨(c9_purity_amended _ _).2.2 rfl (by decide),
    (c9_purity_amended _ _).2.1 (Or.inr (by decide))⟩

/-- Claim C10: calling `formatOutput` with `Decimal` enabled on a UID not
4 bytes long stores the configuration back with `Decimal` cleared;
`formatOutput` never re-enables `Decimal` (so once cleared it stays
cleared); no configuration field other than `Decimal` is ever modified;
and with `Decimal` cleared every call renders via the hex path (for UIDs
of any length, 4 bytes included) and preserves the configuration. -/
theorem c10_decimal_flag_frame (f : Flags) (rx : List Nat) :
    (f.Decimal = true → rx.length ≠ 4 →
      (formatOutput f rx).flags = { f with Decimal := false })
    ∧ ((formatOutput f rx).flags.Decimal = true → f.Decimal = true)
    ∧ ((formatOutput f rx).flags.CapsLock = f.CapsLock
      ∧ (formatOutput f rx).flags.Reverse = f.Reverse
      ∧ (formatOutput f rx).flags.EndChar = f.EndChar
      ∧ (formatOutput f rx).flags.InChar = f.InChar
      ∧ (formatOutput f rx).flags.Device = f.Device)
    ∧ (f.Decimal = false →
      (formatOutput f rx).out =
        hexConcat f.CapsLock f.InChar.Output (if f.Reverse then rx.reverse else rx)
          ++ f.EndChar.Output
      ∧ (formatOutput f rx).flags = f) := by
  have hcases : (formatOutput f rx).flags = f
      ∨ (formatOutput f rx).flags = { f with Decimal := false } := by
    by_cases hd : f.Decimal
    · cases hn : UIDToUint32 (if f.Reverse then rx.reverse else rx) with
      | none => right; simp [formatOutput, hd, hn]
      | some n => left; simp [formatOutput, hd, hn]
    · left; simp [formatOutput, hd]
  refine ⟨?_, ?_, ?_, ?_⟩
  · intro hd hlen
    have hnone : UIDToUint32 (if f.Reverse then rx.reverse else rx) = Option.none :=
      UIDToUint32_eq_none _ (by rw [reverse_if_length]; exact hlen)
    simp [formatOutput, hd, hnone]
  · rcases hcases with h | h <;> rw [h]
    · exact fun h' => h'
    · intro h'; simp at h'
  · rcases hcases with h | h <;> rw [h] <;> exact ⟨rfl, rfl, rfl, rfl, rfl⟩
  · intro hd
    exact ⟨by simp [formatOutput, hd], by simp [formatOutput, hd]⟩

/-- One `trackSystemFailure` step, written out: the counter always
increments, and the restart fires exactly when `SelfRestart` is on and
the new counter value has reached the threshold. -/
lemma trackSystemFailure_eq (op : String) (rm : RestartManager) :
    trackSystemFailure op rm =
      ({ rm with contextFailureCount := rm.contextFailureCount + 1 },
       decide (rm.selfRestart ∧ rm.maxContextFailures ≤ rm.contextFailureCount + 1)) := by
  simp only [trackSystemFailure]
  split_ifs with h <;> simp [h]

/-- After `ResetFailureCount` the counter is always zero: it resets a
positive counter and leaves an already-zero counter alone. -/
lemma ResetFailureCount_eq (rm : RestartManager) :
    ResetFailureCount rm = { rm with contextFailureCount := 0 } := by
  simp only [ResetFailureCount]
  split_ifs with h
  · rfl
  · have h0 : rm.contextFailureCount = 0 := by omega
    cases rm
    simp_all

/-- Running only failures from counter value `c < T` with self-restart on:
the restart fires at the relative call that brings the counter to `T`,
and with fewer calls than that the counter just accumulates. -/
lemma rmRun_fails (T : Nat) (cats : List String) :
    ∀ c, c < T →
      rmRun (cats.map RMEvent.fail) ⟨true, T, c⟩ =
        (if T ≤ c + cats.length
          then (⟨true, T, T⟩, some (T - c - 1))
          else (⟨true, T, c + cats.length⟩, Option.none)) := by
  induction cats with
  | nil =>
    intro c hc
    rw [if_neg (by simp only [List.length_nil]; omega)]
    rfl
  | cons cat cats ih =>
    intro c hc
    simp only [List.map_cons, rmRun, trackSystemFailure_eq]
    by_cases h1 : T ≤ c + 1
    · have hTc : T = c + 1 := by omega
      rw [if_pos (by simp [hTc])]
      rw [if_pos (by simp only [List.length_cons]; omega)]
      simp [hTc]
    · rw [if_neg (by simp [h1])]
      rw [ih (c + 1) (by omega)]
      by_cases h2 : T ≤ c + 1 + cats.length
      · rw [if_pos h2, if_pos (by simp only [List.length_cons]; omega)]
        refine Prod.ext rfl ?_
        show (some (T - (c + 1) - 1)).map (· + 1) = some (T - c - 1)
        simp only [Option.map_some', Option.some.injEq]
        omega
      · rw [if_neg h2, if_neg (by simp only [List.length_cons]; omega)]
        refine Prod.ext ?_ rfl
        show (⟨true, T, c + 1 + cats.length⟩ : RestartManager)
          = ⟨true, T, c + (cat :: cats).length⟩
        simp only [List.length_cons, RestartManager.mk.injEq]
        exact ⟨trivial, trivial, by omega⟩

/-- If the first block of events fires no restart and ends in state
`rm₁`, and the second block fires none from `rm₁`, the whole run fires
none. -/
lemma rmRun_append_none (es₁ es₂ : List RMEvent) (rm₁ : RestartManager)
    (h2 : (rmRun es₂ rm₁).2 = Option.none) :
    ∀ rm, rmRun es₁ rm = (rm₁, Option.none) →
      (rmRun (es₁ ++ es₂) rm).2 = Option.none := by
  induction es₁ with
  | nil =>
    intro rm h1
    simp only [rmRun, Prod.mk.injEq] at h1
    rw [List.nil_append, h1.1]
    exact h2
  | cons e es ih =>
    intro rm h1
    cases e with
    | fail cat =>
      simp only [rmRun] at h1
      by_cases ht : (trackSystemFailure cat rm).2
      · rw [if_pos ht] at h1
        simp at h1
      · rw [if_neg ht] at h1
        rw [Prod.mk.injEq, Option.map_eq_none'] at h1
        have h1' : rmRun es (trackSystemFailure cat rm).1 = (rm₁, Option.none) :=
          Prod.ext h1.1 h1.2
        simp only [List.cons_append, rmRun]
        rw [if_neg ht]
        simp only [Option.map_eq_none']
        exact ih _ h1'
    | success =>
      simp only [rmRun] at h1
      rw [Prod.mk.injEq, Option.map_eq_none'] at h1
      have h1' : rmRun es (ResetFailureCount rm) = (rm₁, Option.none) :=
        Prod.ext h1.1 h1.2
      simp only [List.cons_append, rmRun]
      simp only [Option.map_eq_none']
      exact ih _ h1'

/-- Claim C1: with self-restart enabled and threshold `T ≥ 1`, any run of
consecutive `trackSystemFailure` calls (over any mix of failure
categories) fires the restart exactly at the call that brings the shared
counter to `T` — the call with 0-indexed position `T - 1` — and never
earlier, with no restart at all when fewer than `T` failures arrive;
`ResetFailureCount` leaves the counter at 0 (resetting it whenever it is
positive); and `T - 1` failures, a success, then `T - 1` further failures
never fire the restart. -/
theorem c1_failure_tracker (T : Nat) (hT : 1 ≤ T)
    (cats cats₁ cats₂ : List String)
    (h₁ : cats₁.length = T - 1) (h₂ : cats₂.length = T - 1) :
    ((rmRun (cats.map RMEvent.fail) ⟨true, T, 0⟩).2
      = if T ≤ cats.length then some (T - 1) else Option.none)
    ∧ (∀ rm : RestartManager, (ResetFailureCount rm).contextFailureCount = 0)
    ∧ (rmRun (cats₁.map RMEvent.fail ++ RMEvent.success :: cats₂.map RMEvent.fail)
        ⟨true, T, 0⟩).2 = Option.none := by
  have hreset : ∀ rm : RestartManager, (ResetFailureCount rm).contextFailureCount = 0 := by
    intro rm
    rw [ResetFailureCount_eq]
  refine ⟨?_, hreset, ?_⟩
  · rw [rmRun_fails T cats 0 (by omega)]
    simp only [Nat.zero_add]
    by_cases h : T ≤ cats.length
    · rw [if_pos h, if_pos h]
      simp
    · rw [if_neg h, if_neg h]
  · have hrun₁ := rmRun_fails T cats₁ 0 (by omega)
    rw [if_neg (by omega)] at hrun₁
    have hrun₂ := rmRun_fails T cats₂ 0 (by omega)
    rw [if_neg (by omega)] at hrun₂
    have h2 : (rmRun (RMEvent.success :: cats₂.map RMEvent.fail)
        (⟨true, T, 0 + cats₁.length⟩ : RestartManager)).2 = Option.none := by
      simp only [rmRun, ResetFailureCount_eq]
      rw [hrun₂]
      rfl
    exact rmRun_append_none _ _ _ h2 _ hrun₁

/-- Witness for `c1_failure_tracker` at the spec's threshold `T = 5`:
six straight failures fire the restart exactly at the fifth call
(0-indexed position 4), and 4 failures, a success, then 4 more failures
fire nothing. -/
theorem c1_failure_tracker_witness :
    ((rmRun (List.replicate 6 (RMEvent.fail "PC/SC Context")) ⟨true, 5, 0⟩).2
      = some 4)
    ∧ (rmRun (List.replicate 4 (RMEvent.fail "PC/SC Context")
          ++ RMEvent.success :: List.replicate 4 (RMEvent.fail "Reader Connection"))
        ⟨true, 5, 0⟩).2 = Option.none := by
  have h := c1_failure_tracker 5 (by decide)
    (List.replicate 6 "PC/SC Context")
    (List.replicate 4 "PC/SC Context")
    (List.replicate 4 "Reader Connection")
    (by decide) (by decide)
  refine ⟨?_, ?_⟩
  · have h1 := h.1
    rw [if_pos (by decide)] at h1
    simpa using h1
  · have h3 := h.2.2
    simpa using h3

/-- If the operation first succeeds at relative attempt `j < rem`, the
retry loop returns success after exactly `j + 1` calls, sleeping
`attempt * base` after each failed (necessarily non-final) attempt and
not after the successful one. -/
lemma retryGo_first_success {ε : Type} (maxAttempts base : Nat) (op : Nat → Option ε) :
    ∀ rem attempt j, j < rem → op (attempt + j) = Option.none →
      (∀ i, i < j → op (attempt + i) ≠ Option.none) →
      retryGo maxAttempts base op rem attempt =
        ⟨Except.ok (), j + 1, (List.range' attempt j).map (· * base)⟩ := by
  intro rem
  induction rem with
  | zero => intro attempt j hj; omega
  | succ rem ih =>
    intro attempt j hj hsucc hfail
    cases hop : op attempt with
    | none =>
      have hj0 : j = 0 := by
        by_contra h
        exact hfail 0 (by omega) (by simpa using hop)
      subst hj0
      simp [retryGo, hop, List.range']
    | some e =>
      have hj0 : j ≠ 0 := by
        intro h
        subst h
        rw [Nat.add_zero, hop] at hsucc
        cases hsucc
      obtain ⟨j', rfl⟩ : ∃ j', j = j' + 1 := ⟨j - 1, by omega⟩
      have hrem : rem ≠ 0 := by omega
      simp only [retryGo, hop]
      rw [if_neg hrem]
      rw [ih (attempt + 1) j' (by omega)
        (by have h : attempt + 1 + j' = attempt + (j' + 1) := by omega
            rw [h]; exact hsucc)
        (fun i hi => by
          have h : attempt + 1 + i = attempt + (i + 1) := by omega
          rw [h]; exact hfail (i + 1) (by omega))]
      show (⟨Except.ok (), j' + 1 + 1,
          attempt * base :: (List.range' (attempt + 1) j').map (· * base)⟩ : RetryOutcome ε)
        = ⟨Except.ok (), j' + 1 + 1, (List.range' attempt (j' + 1)).map (· * base)⟩
      rw [List.range'_succ]
      rfl

/-- If every attempt the loop is allowed to make fails, the loop makes
exactly `rem` calls, sleeps after every attempt but the last, and
returns the aggregated error carrying `maxAttempts` and the last
underlying error. -/
lemma retryGo_all_fail {ε : Type} (maxAttempts base : Nat) (op : Nat → Option ε)
    (e : Nat → ε) :
    ∀ rem attempt, 1 ≤ rem →
      (∀ i, i < rem → op (attempt + i) = some (e (attempt + i))) →
      retryGo maxAttempts base op rem attempt =
        ⟨Except.error (maxAttempts, e (attempt + rem - 1)), rem,
         (List.range' attempt (rem - 1)).map (· * base)⟩ := by
  intro rem
  induction rem with
  | zero => intro attempt h1; omega
  | succ rem ih =>
    intro attempt _ hfail
    have hop : op attempt = some (e attempt) := by simpa using hfail 0 (by omega)
    simp only [retryGo, hop]
    by_cases hrem : rem = 0
    · subst hrem
      rw [if_pos rfl]
      simp [List.range']
    · rw [if_neg hrem]
      rw [ih (attempt + 1) (by omega)
        (fun i hi => by
          have h : attempt + 1 + i = attempt + (i + 1) := by omega
          rw [h]; exact hfail (i + 1) (by omega))]
      show (⟨Except.error (maxAttempts, e (attempt + 1 + rem - 1)), rem + 1,
          attempt * base :: (List.range' (attempt + 1) (rem - 1)).map (· * base)⟩ : RetryOutcome ε)
        = ⟨Except.error (maxAttempts, e (attempt + (rem + 1) - 1)), rem + 1,
           (List.range' attempt (rem + 1 - 1)).map (· * base)⟩
      have h1 : attempt + 1 + rem - 1 = attempt + (rem + 1) - 1 := by omega
      have h2 : rem + 1 - 1 = (rem - 1) + 1 := by omega
      rw [h1, h2, List.range'_succ]
      rfl

/-- Claim C2: for every operation, `maxAttempts ≥ 1` and `baseDelay ≥ 0`,
`Retry` calls the operation until its first success and at most
`maxAttempts` times.  If attempt `k` (1-indexed) is the first success it
returns success after exactly `k` calls, having slept `i * baseDelay`
after each failed non-final attempt `i` (attempts `1 .. k-1`) and not
after the final attempt; if all attempts fail it makes exactly
`maxAttempts` calls, sleeps only after attempts `1 .. maxAttempts-1`,
and returns a single aggregated error carrying the total attempt count
and the last underlying error. -/
theorem c2_retry_contract {ε : Type} (maxAttempts base : Nat) (op : Nat → Option ε)
    (hmax : 1 ≤ maxAttempts) :
    (∀ k, 1 ≤ k → k ≤ maxAttempts → op k = Option.none →
      (∀ j, j < k → 1 ≤ j → op j ≠ Option.none) →
      Retry maxAttempts base op =
        ⟨Except.ok (), k, (List.range' 1 (k - 1)).map (· * base)⟩)
    ∧ (∀ e : Nat → ε, (∀ j, j ≤ maxAttempts → 1 ≤ j → op j = some (e j)) →
      Retry maxAttempts base op =
        ⟨Except.error (maxAttempts, e maxAttempts), maxAttempts,
         (List.range' 1 (maxAttempts - 1)).map (· * base)⟩) := by
  constructor
  · intro k hk1 hkmax hsucc hfail
    have h := retryGo_first_success maxAttempts base op maxAttempts 1 (k - 1) (by omega)
      (by have hx : 1 + (k - 1) = k := by omega
          rw [hx]; exact hsucc)
      (fun i hi => by
        have hx : 1 + i = i + 1 := by omega
        rw [hx]; exact hfail (i + 1) (by omega) (by omega))
    unfold Retry
    rw [h]
    have hk : k - 1 + 1 = k := by omega
    rw [hk]
  · intro e hfail
    have h := retryGo_all_fail maxAttempts base op e maxAttempts 1 (by omega)
      (fun i hi => by
        have hx : 1 + i = i + 1 := by omega
        rw [hx]; exact hfail (i + 1) (by omega) (by omega))
    unfold Retry
    rw [h]
    have hx : 1 + maxAttempts - 1 = maxAttempts := by omega
    rw [hx]

/-- An operation failing on attempts 1 and 2 and succeeding on attempt 3,
as in the spec's retry-recovery test. -/
def opRecover : Nat → Option Nat := fun j => if j = 3 then Option.none else some 0

/-- An operation that always fails, reporting its attempt index as the
error, as in the spec's retry-exhaustion test. -/
def opAlwaysFail : Nat → Option Nat := fun j => some j

/-- Witness for `c2_retry_contract` with `maxAttempts = 3`,
`baseDelay = 2`: recovery on attempt 3 gives success after 3 calls and
sleeps `[1*2, 2*2]`; exhaustion gives the aggregated error
`(3, last error)` after exactly 3 calls. -/
theorem c2_retry_contract_witness :
    Retry 3 2 opRecover = ⟨Except.ok (), 3, [2, 4]⟩
    ∧ Retry 3 2 opAlwaysFail = ⟨Except.error (3, 3), 3, [2, 4]⟩ := by
  constructor
  · have h := (c2_retry_contract 3 2 opRecover (by omega)).1 3 (by omega) (by omega)
      (by decide) (by decide)
    rw [h]
    rfl
  · have h := (c2_retry_contract 3 2 opAlwaysFail (by omega)).2 (fun j => j) (by decide)
    rw [h]
    rfl

lemma alookup_aset_self (k : String) (v : α) (l : List (String × α)) :
    alookup k (aset k v l) = some v := by
  induction l with
  | nil => simp [aset, alookup]
  | cons p t ih =>
    obtain ⟨k', v'⟩ := p
    simp only [aset]
    by_cases h : k' = k
    · rw [if_pos h]
      simp [alookup]
    · rw [if_neg h]
      simp only [alookup, if_neg h]
      exact ih

lemma alookupD_aset_self (k : String) (v : Nat) (l : List (String × Nat)) :
    alookupD k (aset k v l) = v := by
  simp [alookupD, alookup_aset_self]

/-- The card-read schedule of `shouldNotifyError`, once the error type has
been notified before: notify when the pre-increment count is 0 or a
multiple of 5, or when more than 2 minutes have elapsed. -/
lemma shouldNotify_card_eq (nm : NotificationManager) (msg : String) (now last : Nat)
    (hlast : alookup "card-error" nm.lastNotifications = some last) :
    shouldNotifyError nm "card-error" msg now =
      (if alookupD "card-error" nm.errorCounts = 0
          ∨ alookupD "card-error" nm.errorCounts % 5 = 0 then true
       else if 2 * minuteNs < now - last then true
       else false) := by
  simp only [shouldNotifyError, hlast]
  rw [if_neg (by decide), if_pos (by decide)]

/-- Claim C5: for the card-read category, with the decision evaluated
before the unconditional increment and the elapsed time since the last
notification at most 2 minutes, `NotifyErrorThrottled` fires exactly when
the occurrence count is 0 or a multiple of 5; the count increments on
every call; `lastNotifiedAt` is rewritten to the current time exactly
when a notification fires and left alone otherwise; and 12 consecutive
card-read errors from a fresh state fire on occurrences 1, 6 and 11
(1-indexed) and suppress the rest. -/
theorem c5_card_read_schedule (nm : NotificationManager) (msg : String) (now last : Nat)
    (hen : nm.enabled = true) (hse : nm.showErrors = true)
    (hlast : alookup "card-error" nm.lastNotifications = some last)
    (hno : now - last ≤ 2 * minuteNs) :
    ((NotifyErrorThrottled nm "card-error" msg now).2 = true
      ↔ (alookupD "card-error" nm.errorCounts = 0
         ∨ alookupD "card-error" nm.errorCounts % 5 = 0))
    ∧ alookupD "card-error" (NotifyErrorThrottled nm "card-error" msg now).1.errorCounts
        = alookupD "card-error" nm.errorCounts + 1
    ∧ ((NotifyErrorThrottled nm "card-error" msg now).2 = false →
        (NotifyErrorThrottled nm "card-error" msg now).1.lastNotifications
          = nm.lastNotifications)
    ∧ ((NotifyErrorThrottled nm "card-error" msg now).2 = true →
        alookup "card-error" (NotifyErrorThrottled nm "card-error" msg now).1.lastNotifications
          = some now)
    ∧ (runCardErrors freshNM (List.replicate 12 0)).2
        = [true, false, false, false, false, true, false, false, false, false, true, false] := by
  have hguard : (¬nm.enabled ∨ ¬nm.showErrors) = False := by
    simp [hen, hse]
  refine ⟨?_, ?_, ?_, ?_, by decide⟩
  · simp only [NotifyErrorThrottled, hguard, if_false]
    rw [shouldNotify_card_eq nm msg now last hlast]
    split_ifs with h1 h2
    · simpa using h1
    · omega
    · simpa using h1
  · simp only [NotifyErrorThrottled, hguard, if_false]
    exact alookupD_aset_self _ _ _
  · simp only [NotifyErrorThrottled, hguard, if_false]
    intro hf
    rw [if_neg (by simpa using hf)]
  · simp only [NotifyErrorThrottled, hguard, if_false]
    intro hf
    rw [if_pos (by simpa using hf)]
    exact alookup_aset_self _ _ _

/-- Witness for `c5_card_read_schedule`: with an existing card-error
entry last notified at time 5, occurrence count 7 and the clock at 10
(elapsed far below 2 minutes), no notification fires, the count moves to
8 and the timestamps stay put; a second application at count 10 fires. -/
theorem c5_card_read_schedule_witness :
    ((NotifyErrorThrottled ⟨true, true, true, [("card-error", 5)], [("card-error", 7)]⟩
        "card-error" "msg" 10).2 = false
      ∧ alookupD "card-error"
          (NotifyErrorThrottled ⟨true, true, true, [("card-error", 5)], [("card-error", 7)]⟩
            "card-error" "msg" 10).1.errorCounts = 8)
    ∧ (NotifyErrorThrottled ⟨true, true, true, [("card-error", 5)], [("card-error", 10)]⟩
        "card-error" "msg" 10).2 = true := by
  have h1 := c5_card_read_schedule
    ⟨true, true, true, [("card-error", 5)], [("card-error", 7)]⟩ "msg" 10 5
    rfl rfl (by decide) (by decide)
  have h2 := c5_card_read_schedule
    ⟨true, true, true, [("card-error", 5)], [("card-error", 10)]⟩ "msg" 10 5
    rfl rfl (by decide) (by decide)
  refine ⟨⟨?_, ?_⟩, ?_⟩
  · have hiff := h1.1
    by_contra hne
    have : (NotifyErrorThrottled ⟨true, true, true, [("card-error", 5)], [("card-error", 7)]⟩
        "card-error" "msg" 10).2 = true := by
      cases hb : (NotifyErrorThrottled ⟨true, true, true, [("card-error", 5)], [("card-error", 7)]⟩
          "card-error" "msg" 10).2
      · exact absurd hb hne
      · rfl
    have h7 := hiff.mp this
    revert h7
    decide
  · have hc := h1.2.1
    simpa using hc
  · exact h2.1.mpr (by decide)

/-- Claim C6: `NotifySuccess` (with notifications and success display
enabled) delivers exactly when some category has a positive occurrence
count; delivering clears every category's count to 0, leaves the
last-notification timestamps alone, and never touches the failure
tracker's counter; when no category has a positive count the whole state
is left unchanged and nothing is delivered. -/
theorem c6_success_gating (s : SystemState) (msg : String)
    (hen : s.nm.enabled = true) (hsh : s.nm.showSuccess = true) :
    ((sysNotifySuccess s msg).2 = true ↔ ∃ p ∈ s.nm.errorCounts, 0 < p.2)
    ∧ ((sysNotifySuccess s msg).2 = true →
        (∀ t, alookupD t (sysNotifySuccess s msg).1.nm.errorCounts = 0)
        ∧ (sysNotifySuccess s msg).1.nm.lastNotifications = s.nm.lastNotifications
        ∧ (sysNotifySuccess s msg).1.rm = s.rm)
    ∧ ((sysNotifySuccess s msg).2 = false → (sysNotifySuccess s msg).1 = s) := by
  by_cases hr : hasRecentErrors s.nm
  · refine ⟨?_, ?_, ?_⟩
    · constructor
      · intro _
        simp only [hasRecentErrors, List.any_eq_true, decide_eq_true_eq] at hr
        exact hr
      · intro _
        simp [sysNotifySuccess, NotifySuccess, hen, hsh, hr]
    · intro _
      refine ⟨?_, ?_, ?_⟩ <;>
        simp [sysNotifySuccess, NotifySuccess, hen, hsh, hr, alookupD, alookup]
    · intro hf
      simp [sysNotifySuccess, NotifySuccess, hen, hsh, hr] at hf
  · refine ⟨?_, ?_, ?_⟩
    · constructor
      · intro ht
        exfalso
        simp [sysNotifySuccess, NotifySuccess, hen, hsh, hr] at ht
      · intro hex
        exfalso
        simp only [hasRecentErrors, List.any_eq_true, decide_eq_true_eq] at hr
        exact hr hex
    · intro ht
      exfalso
      simp [sysNotifySuccess, NotifySuccess, hen, hsh, hr] at ht
    · intro _
      simp [sysNotifySuccess, NotifySuccess, hen, hsh, hr]

/-- Witness for `c6_success_gating`: with one degraded category the
success notification is delivered, all counts clear and the restart
counter survives; with no degraded category nothing changes. -/
theorem c6_success_gating_witness :
    ((sysNotifySuccess ⟨⟨true, true, true, [("card-error", 9)], [("card-error", 3)]⟩,
        ⟨true, 5, 2⟩⟩ "ok").2 = true
      ∧ (sysNotifySuccess ⟨⟨true, true, true, [("card-error", 9)], [("card-error", 3)]⟩,
          ⟨true, 5, 2⟩⟩ "ok").1.rm = ⟨true, 5, 2⟩)
    ∧ (sysNotifySuccess ⟨⟨true, true, true, [("card-error", 9)], []⟩,
        ⟨true, 5, 2⟩⟩ "ok").1
      = ⟨⟨true, true, true, [("card-error", 9)], []⟩, ⟨true, 5, 2⟩⟩ := by
  have h1 := c6_success_gating
    ⟨⟨true, true, true, [("card-error", 9)], [("card-error", 3)]⟩, ⟨true, 5, 2⟩⟩ "ok" rfl rfl
  have h2 := c6_success_gating
    ⟨⟨true, true, true, [("card-error", 9)], []⟩, ⟨true, 5, 2⟩⟩ "ok" rfl rfl
  have hdeliver : (sysNotifySuccess
      ⟨⟨true, true, true, [("card-error", 9)], [("card-error", 3)]⟩, ⟨true, 5, 2⟩⟩ "ok").2
      = true :=
    h1.1.mpr ⟨("card-error", 3), by decide, by decide⟩
  refine ⟨⟨hdeliver, (h1.2.1 hdeliver).2.2⟩, ?_⟩
  refine h2.2.2 ?_
  by_contra hne
  have ht : (sysNotifySuccess ⟨⟨true, true, true, [("card-error", 9)], []⟩,
      ⟨true, 5, 2⟩⟩ "ok").2 = true := by
    cases hb : (sysNotifySuccess ⟨⟨true, true, true, [("card-error", 9)], []⟩,
        ⟨true, 5, 2⟩⟩ "ok").2
    · exact absurd hb hne
    · rfl
  obtain ⟨p, hp, hpos⟩ := h2.1.mp ht
  simp at hp

/-- Claim C7 counterexample: a card whose UID is read successfully but
whose keystroke-sink write fails.  The failure is notified (keyboard
error plus throttled card error) and the loop continues, but the
iteration never reaches the wait-for-release step: `processCard` returns
the sink error before `waitUntilCardRelease`, refuting the claim that
the state machine waits for the card to be removed regardless. -/
theorem c7_counterexample :
    (cardReadingIter (Except.ok 0)
        (⟨Option.none, Except.ok [1, 2, 3, 4], some 0, Option.none⟩ : CardEnv Nat)
        true ⟨false, false, false, CharFlag.enter, CharFlag.hyphen, 1⟩).1
      = LoopStep.continueLoop
    ∧ PCEvent.notifyKeyboardError ∈
        (cardReadingIter (Except.ok 0)
          (⟨Option.none, Except.ok [1, 2, 3, 4], some 0, Option.none⟩ : CardEnv Nat)
          true ⟨false, false, false, CharFlag.enter, CharFlag.hyphen, 1⟩).2.1
    ∧ PCEvent.waitedForRelease ∉
        (cardReadingIter (Except.ok 0)
          (⟨Option.none, Except.ok [1, 2, 3, 4], some 0, Option.none⟩ : CardEnv Nat)
          true ⟨false, false, false, CharFlag.enter, CharFlag.hyphen, 1⟩).2.1 := by
  refine ⟨by decide, by decide, by decide⟩

/-- Claim C7 amended: when the UID is read successfully and the keystroke
sink write fails, the failure is reported (the keyboard-error
notification and the throttled card-error notification both fire) and
the read loop is not aborted, but the iteration does not wait for the
card to be removed and no success is notified: it proceeds directly to
awaiting the next card. -/
theorem c7_sink_failure {ε : Type} (env : CardEnv ε) (f : Flags) (e : ε)
    (idx : Nat) (auto : Bool) (uid : List Nat)
    (hconn : env.connect = Option.none)
    (hread : env.readUID = Except.ok uid)
    (hkb : env.kbWrite = some e) :
    (cardReadingIter (Except.ok idx) env auto f).1 = LoopStep.continueLoop
    ∧ PCEvent.notifyKeyboardError ∈ (cardReadingIter (Except.ok idx) env auto f).2.1
    ∧ PCEvent.notifyCardError ∈ (cardReadingIter (Except.ok idx) env auto f).2.1
    ∧ PCEvent.waitedForRelease ∉ (cardReadingIter (Except.ok idx) env auto f).2.1
    ∧ PCEvent.notifySuccess ∉ (cardReadingIter (Except.ok idx) env auto f).2.1 := by
  simp only [cardReadingIter, processCard, hconn, hread, hkb]
  by_cases hfb : (formatOutput f uid).fallbackNotified <;> simp [hfb]

/-- Witness for `c7_sink_failure`: a concrete 4-byte card with a failing
sink; the iteration notifies, continues, and skips the release wait. -/
theorem c7_sink_failure_witness :
    (cardReadingIter (Except.ok 0)
        (⟨Option.none, Except.ok [0x04, 0xAE, 0x65, 0xCA], some 7, Option.none⟩ : CardEnv Nat)
        false ⟨false, false, false, CharFlag.none, CharFlag.none, 1⟩).1
      = LoopStep.continueLoop
    ∧ PCEvent.notifyKeyboardError ∈
        (cardReadingIter (Except.ok 0)
          (⟨Option.none, Except.ok [0x04, 0xAE, 0x65, 0xCA], some 7, Option.none⟩ : CardEnv Nat)
          false ⟨false, false, false, CharFlag.none, CharFlag.none, 1⟩).2.1
    ∧ PCEvent.notifyCardError ∈
        (cardReadingIter (Except.ok 0)
          (⟨Option.none, Except.ok [0x04, 0xAE, 0x65, 0xCA], some 7, Option.none⟩ : CardEnv Nat)
          false ⟨false, false, false, CharFlag.none, CharFlag.none, 1⟩).2.1
    ∧ PCEvent.waitedForRelease ∉
        (cardReadingIter (Except.ok 0)
          (⟨Option.none, Except.ok [0x04, 0xAE, 0x65, 0xCA], some 7, Option.none⟩ : CardEnv Nat)
          false ⟨false, false, false, CharFlag.none, CharFlag.none, 1⟩).2.1
    ∧ PCEvent.notifySuccess ∉
        (cardReadingIter (Except.ok 0)
          (⟨Option.none, Except.ok [0x04, 0xAE, 0x65, 0xCA], some 7, Option.none⟩ : CardEnv Nat)
          false ⟨false, false, false, CharFlag.none, CharFlag.none, 1⟩).2.1 :=
  c7_sink_failure
    (⟨Option.none, Except.ok [0x04, 0xAE, 0x65, 0xCA], some 7, Option.none⟩ : CardEnv Nat)
    ⟨false, false, false, CharFlag.none, CharFlag.none, 1⟩ 7 0 false
    [0x04, 0xAE, 0x65, 0xCA] rfl rfl rfl

/-- Claim C8 counterexample: with one reader and the configured device
number 5 (out of range, non-zero), `runServiceLoop` returns the
out-of-range error, and with `autoReconnect` enabled `Start` retries the
whole service loop after the delay instead of stopping the service. -/
theorem c8_counterexample :
    runServiceLoop ⟨Option.none, Except.ok ["ACR122U"], SvcError.loopError⟩ 5
      = SvcError.deviceOutOfRange 5 1
    ∧ startHandle true (SvcError.deviceOutOfRange 5 1) = StartOutcome.retryAfterDelay
    ∧ ∀ code, startHandle true (SvcError.deviceOutOfRange 5 1) ≠ StartOutcome.stopped code := by
  refine ⟨by decide, by decide, fun code => by simp [startHandle]⟩

/-- Claim C8 amended: a zero-readers enumeration and an out-of-range
(non-zero) device selection both make `runServiceLoop` fail with the
corresponding fatal configuration error; `Start` handles every such
error uniformly — without `autoReconnect` the service stops with exit
code 1, with `autoReconnect` it retries the full service loop after the
fixed delay, for the out-of-range case just as for zero readers. -/
theorem c8_fatal_config_amended (env : SvcEnv) (device : Int) (readers : List String)
    (hctx : env.establishCtx = Option.none)
    (hlist : env.listReaders = Except.ok readers) :
    (readers.length = 0 → runServiceLoop env device = SvcError.zeroReaders)
    ∧ (device ≠ 0 → (device < 1 ∨ (readers.length : Int) < device) → readers.length ≠ 0 →
        runServiceLoop env device = SvcError.deviceOutOfRange device readers.length)
    ∧ (∀ e, startHandle false e = StartOutcome.stopped 1)
    ∧ (∀ e, startHandle true e = StartOutcome.retryAfterDelay) := by
  refine ⟨?_, ?_, fun e => rfl, fun e => rfl⟩
  · intro h0
    simp [runServiceLoop, hctx, hlist, h0]
  · intro hdev hrange hlen
    simp only [runServiceLoop, hctx, hlist]
    rw [if_neg (by omega)]
    simp only [selectDevice]
    rw [if_neg hdev, if_pos hrange]

/-- Witness for `c8_fatal_config_amended`: zero readers and the
out-of-range device 5 against one reader, with both `Start` reactions. -/
theorem c8_fatal_config_amended_witness :
    runServiceLoop ⟨Option.none, Except.ok [], SvcError.loopError⟩ 1 = SvcError.zeroReaders
    ∧ runServiceLoop ⟨Option.none, Except.ok ["ACR122U"], SvcError.loopError⟩ 5
        = SvcError.deviceOutOfRange 5 1
    ∧ startHandle false SvcError.zeroReaders = StartOutcome.stopped 1
    ∧ startHandle true SvcError.zeroReaders = StartOutcome.retryAfterDelay := by
  have h1 := c8_fatal_config_amended
    ⟨Option.none, Except.ok [], SvcError.loopError⟩ 1 [] rfl rfl
  have h2 := c8_fatal_config_amended
    ⟨Option.none, Except.ok ["ACR122U"], SvcError.loopError⟩ 5 ["ACR122U"] rfl rfl
  exact ⟨h1.1 rfl, h2.2.1 (by decide) (by decide) (by decide),
    h1.2.2.1 SvcError.zeroReaders, h1.2.2.2 SvcError.zeroReaders⟩

/-- Witness for `c10_decimal_flag_frame`: the 7-byte decimal call clears
the flag, and a subsequent hex-path call on a 4-byte UID keeps the
configuration and renders hex. -/
theorem c10_decimal_flag_frame_witness :
    ((formatOutput ⟨false, false, true, CharFlag.none, CharFlag.none, 1⟩
        [1, 2, 3, 4, 5, 6, 7]).flags
      = { (⟨false, false, true, CharFlag.none, CharFlag.none, 1⟩ : Flags) with
            Decimal := false })
    ∧ ((formatOutput ⟨false, false, false, CharFlag.none, CharFlag.none, 1⟩
        [4, 174, 101, 202]).out
      = hexConcat false (CharFlag.none).Output [4, 174, 101, 202]
          ++ (CharFlag.none).Output
    ∧ (formatOutput ⟨false, false, false, CharFlag.none, CharFlag.none, 1⟩
        [4, 174, 101, 202]).flags
      = ⟨false, false, false, CharFlag.none, CharFlag.none, 1⟩) := by
  refine ⟨(c10_decimal_flag_frame _ _).1 rfl (by decide), ?_⟩
  have h := (c10_decimal_flag_frame
    ⟨false, false, false, CharFlag.none, CharFlag.none, 1⟩ [4, 174, 101, 202]).2.2.2 rfl
  simpa using h

end Nfcuid
